import Mathlib

/-!
Shallow embedding of the trinity-wallet sources:
* the `Receive` React component (address scramble/reveal animation,
  address generation and validation) from the unnamed component file, and
* the `marketData` Redux action creators from
  `src/shared/actions/marketData.js`.

JavaScript numbers are modelled as `Int` (scramble magnitudes, frame
counters) or `ℚ` (market statistics); side effects (alerts, navigation,
scheduling via `requestAnimationFrame`, Redux `dispatch`) are modelled as
explicit effect lists or boolean flags returned by the embedded functions.
-/

namespace Receive

/-- Fixed address length.  Modelled from the spec: `ADDRESS_LENGTH` is
imported from `libs/iota/utils` (not part of the sources); the spec's test
scenario uses an 81-character address. -/
def ADDRESS_LENGTH : Nat := 81

/-- Modelled from the spec: `randomBytes` from `libs/crypto` (not part of
the sources) returns `n` random byte values; the generator is abstracted
as a function `gen`, only the length of the result matters here. -/
def randomBytes (n : Nat) (gen : Nat → Int) : List Int :=
  (List.range n).map gen

/-- The mutable data of one `Receive` component instance that the
scramble animation touches: `this.state.scramble` and the instance field
`this.frame` (`-1` is the unmount sentinel set by `componentWillUnmount`). -/
structure ReceiveState where
  scramble : List Int
  frame : Int
deriving Repr, DecidableEq

/-- One decay pass of `unscramble`: `scrambleNew.push(Math.max(0, scramble[i] - 15))`
for every position. -/
def decay (l : List Int) : List Int :=
  l.map (fun e => max 0 (e - 15))

/-- One call of `unscramble()` (source lines 129-159).  Returns the new
component state and whether `requestAnimationFrame` was invoked to
schedule a further frame.

Faithful to the source: an early return when `this.frame < 0`; when
`this.frame > 3` the decay tick sums the OLD magnitudes into `sum`,
replaces the buffer by its decayed copy and resets the counter to `0`
before the `this.frame++`; otherwise `sum` keeps its initial value `-1`;
finally a new frame is scheduled iff `sum !== 0`. -/
def unscrambleStep (s : ReceiveState) : ReceiveState × Bool :=
  if s.frame < 0 then
    (s, false)
  else if s.frame > 3 then
    ({ scramble := decay s.scramble, frame := 1 }, s.scramble.sum != 0)
  else
    ({ scramble := s.scramble, frame := s.frame + 1 }, true)

/-- The component state right after `componentWillReceiveProps` observes a
finished address generation: `this.frame = 0` and a fresh scramble buffer
(the subsequent `this.unscramble()` invocation is the first call counted
by `runCalls`). -/
def startReveal (b : List Int) : ReceiveState :=
  { scramble := b, frame := 0 }

/-- State after `n` consecutive `unscramble` calls. -/
def runCalls : ReceiveState → Nat → ReceiveState
  | s, 0 => s
  | s, n + 1 => runCalls (unscrambleStep s).1 n

/-- Initial `this.state.scramble`: `new Array(ADDRESS_LENGTH).fill(0)`. -/
def initialScramble : List Int :=
  List.replicate ADDRESS_LENGTH 0

/-- Embeds `componentWillReceiveProps` (source lines 72-82): when
`isGeneratingReceiveAddress` goes from `true` to `false`, reset the frame
counter and reseed the scramble buffer with `randomBytes(ADDRESS_LENGTH)`. -/
def componentWillReceiveProps (wasGenerating nextGenerating : Bool)
    (s : ReceiveState) (gen : Nat → Int) : ReceiveState :=
  if wasGenerating && !nextGenerating then
    { scramble := randomBytes ADDRESS_LENGTH gen, frame := 0 }
  else
    s

/-- Embeds `componentWillUnmount` (source lines 84-86): `this.frame = -1`. -/
def componentWillUnmount (s : ReceiveState) : ReceiveState :=
  { s with frame := -1 }

/-- Observable side effects of the `Receive` component's handlers:
alerts (`generateAlert(level, title, body)` with already-translated
strings), navigation (`history.push(path)`), construction of a seed
store (`new SeedStore[accountMeta.type](...)`) and the dispatch of the
`generateNewAddress` action. -/
inductive UIEffect where
  | alert (level title body : String)
  | navigate (path : String)
  | seedStoreNew
  | generateNewAddress
deriving Repr, DecidableEq

/-- The two busy flags from the wallet UI state that guard address
generation. -/
structure GenProps where
  isSyncing : Bool
  isTransitioning : Bool
deriving Repr, DecidableEq

/-- Embeds `onGeneratePress` (source lines 88-107): when `isSyncing` or
`isTransitioning`, return after raising a single "please wait" error
alert; otherwise construct the seed store and dispatch
`generateNewAddress`.  The i18n translation function `t` is a parameter. -/
def onGeneratePress (t : String → String) (p : GenProps) : List UIEffect :=
  if p.isSyncing || p.isTransitioning then
    [UIEffect.alert "error" (t "global:pleaseWait") (t "global:pleaseWaitExplanation")]
  else
    [UIEffect.seedStoreNew, UIEffect.generateNewAddress]

/-- The `notification` object optionally carried by a truthy
`validateAddress` result. -/
structure NotificationInfo where
  title : String
  content : String
deriving Repr, DecidableEq

/-- Result of the external `seedStore.validateAddress` call: a falsy
value (`false`), or a truthy value that may or may not carry a
`notification` object. -/
inductive ValidationResult where
  | invalid
  | valid (notif : Option NotificationInfo)
deriving Repr, DecidableEq

/-- Embeds `validateAdress` (source lines 109-127) as a function of the
outcome of the awaited `seedStore.validateAddress` call (`Except.error`
models a thrown exception, caught by the `try/catch`):
`if (!valid) history.push('/wallet/'); else if (valid.notification)
generateAlert('success', t(title), t(content))`, and on a thrown error
`history.push('/wallet/')`. -/
def validateAdress (t : String → String) (res : Except String ValidationResult) :
    List UIEffect :=
  match res with
  | Except.error _ => [UIEffect.navigate "/wallet/"]
  | Except.ok ValidationResult.invalid => [UIEffect.navigate "/wallet/"]
  | Except.ok (ValidationResult.valid none) => []
  | Except.ok (ValidationResult.valid (some n)) =>
      [UIEffect.alert "success" (t n.title) (t n.content)]

/-- Recognizer used to count alert effects. -/
def isAlert : UIEffect → Bool
  | UIEffect.alert _ _ _ => true
  | _ => false

/-- Embeds the per-character rendering of the address (source lines
174-177): `scramble[index] > 0 ? byteToChar(scramble[index]) : null`
followed by `scrambleChar || char`.  The external `byteToChar` mapping
(`libs/helpers`, not part of the sources) is a parameter `b2c`; an
out-of-range `scramble[index]` is `undefined` in JavaScript, which fails
the `> 0` test, so the true character shows. -/
def renderAddress (b2c : Int → Char) : List Char → List Int → List Char
  | [], _ => []
  | c :: cs, [] => c :: renderAddress b2c cs []
  | c :: cs, m :: ms => (if 0 < m then b2c m else c) :: renderAddress b2c cs ms

/-- A concrete substitute-character mapping used to instantiate witness
statements. -/
def constSub : Int → Char := fun _ => 'Z'

end Receive

namespace MarketData

/-- Embeds lodash `get(data, key)` on a flat data object: `none` models
`undefined` (absent field). -/
def jsGet (data : List (String × ℚ)) (key : String) : Option ℚ :=
  data.lookup key

/-- Embeds `Math.round`: round to the nearest integer, ties toward
positive infinity. -/
def jsRound (q : ℚ) : Int :=
  ⌊q + 1 / 2⌋

/-- Decimal digit characters of a natural number, most significant
first (the JavaScript decimal rendering of a non-negative integer). -/
def natDigits (n : Nat) : List Char :=
  if n < 10 then [Nat.digitChar n]
  else natDigits (n / 10) ++ [Nat.digitChar (n % 10)]
termination_by n
decreasing_by exact Nat.div_lt_self (by omega) (by omega)

/-- Embeds `Number.prototype.toFixed(2)`: scale the magnitude by 100,
round to the nearest integer (ties away from zero), and print
`sign ++ integer part ++ "." ++ two fraction digits`. -/
def jsToFixed2 (q : ℚ) : String :=
  let a : ℚ := if q < 0 then -q else q
  let n : Nat := (⌊a * 100 + 1 / 2⌋).toNat
  String.mk ((if q < 0 then ['-'] else []) ++ natDigits (n / 100) ++
    ['.', Nat.digitChar (n / 10 % 10), Nat.digitChar (n % 10)])

/-- The `SET_STATISTICS` action object built by `setMarketData`. -/
structure MarketAction where
  type : String
  price : ℚ
  mcap : Int
  volume : Int
  change24h : String
deriving Repr, DecidableEq

/-- Embeds `setMarketData` (source lines 40-54):
`price = get(data, currency) || 0` (the `|| 0` collapses a falsy value
to `0`), `mcap`/`volume` are `Math.round(get(data, key, 0))`, and
`change24h = parseFloat(Math.round(pct * 100) / 100).toFixed(2)`
(`parseFloat` is the identity on a number). -/
def setMarketData (currency : String) (data : List (String × ℚ)) : MarketAction :=
  let price : ℚ :=
    match jsGet data currency with
    | none => 0
    | some v => if v = 0 then 0 else v
  let mcap := jsRound ((jsGet data (currency ++ "_market_cap")).getD 0)
  let volume := jsRound ((jsGet data (currency ++ "_24h_vol")).getD 0)
  let changePct24Hours := (jsGet data (currency ++ "_24h_change")).getD 0
  let change24h := jsToFixed2 ((jsRound (changePct24Hours * 100) : ℚ) / 100)
  { type := "IOTA/MARKET_DATA/SET_STATISTICS"
    price := price
    mcap := mcap
    volume := volume
    change24h := change24h }

/-- A decimal digit character, by its code point. -/
def isDigitChar (c : Char) : Prop :=
  48 ≤ c.toNat ∧ c.toNat ≤ 57

/-- A string whose final `.` is followed by exactly two decimal digit
characters and whose earlier part contains no `.`. -/
def isTwoDecimalString (s : String) : Prop :=
  ∃ pre d1 d2, s.data = pre ++ ['.', d1, d2] ∧ ('.' ∉ pre) ∧
    isDigitChar d1 ∧ isDigitChar d2

/-- Embeds the `timeframeMap` object literal in `fetchChartData`
(source lines 140-144); lodash `get` of a missing key yields
`undefined`, modelled as `none`. -/
def timeframeMap (tf : String) : Option Nat :=
  if tf = "24h" then some 1
  else if tf = "7d" then some 7
  else if tf = "1m" then some 30
  else none

/-- Embeds `fetchChartData` (source lines 132-154): the `'1h'` timeframe
recursively delegates to `'24h'` (the extra `.then` is the identity);
otherwise the external CoinGecko call is made with
`days = get(timeframeMap, timeframe)`.  The external call is the
parameter `fetch` and may fail (`Except.error`, a rejected promise). -/
def fetchChartData (fetch : String → Option Nat → Except String (List ℚ))
    (currency tf : String) : Except String (List ℚ) :=
  let tf2 := if tf = "1h" then "24h" else tf
  fetch currency (timeframeMap tf2)

/-- Observable trace of one run of the thunk returned by `getChartData`:
the Redux actions dispatched, the entries written into the local
`chartData` object, and the errors passed to `console.log`. -/
structure GetChartDataRun where
  dispatched : List String
  chartDataLocal : List (String × List ℚ)
  errorsLogged : List String
deriving Repr, DecidableEq

/-- One iteration of the `timeframes.forEach` body in `getChartData`
(source lines 120-128): on success store the formatted data in the local
`chartData` object, on failure log the error; nothing is dispatched. -/
def chartStep (fetch : String → Option Nat → Except String (List ℚ))
    (fmt : List ℚ → List ℚ) (currency : String)
    (acc : GetChartDataRun) (tf : String) : GetChartDataRun :=
  match fetchChartData fetch currency tf with
  | Except.ok d => { acc with chartDataLocal := acc.chartDataLocal ++ [(tf, fmt d)] }
  | Except.error e => { acc with errorsLogged := acc.errorsLogged ++ [e] }

/-- Embeds the thunk returned by `getChartData` (source lines 114-130):
iterate the four timeframes, fetching and formatting each; the external
`formatChartData` is the parameter `fmt`. -/
def getChartData (fetch : String → Option Nat → Except String (List ℚ))
    (fmt : List ℚ → List ℚ) (currency : String) : GetChartDataRun :=
  (["24h", "7d", "1m", "1h"]).foldl (chartStep fetch fmt currency)
    { dispatched := [], chartDataLocal := [], errorsLogged := [] }

/-- Folding a reducer over a list of dispatched actions: the resulting
store state. -/
def applyActions {σ : Type} (red : σ → String → σ) (st : σ) (acts : List String) : σ :=
  acts.foldl red st

/-- Concrete sample data object used to instantiate witness statements:
the `usd` price field is absent and the 24h change is 2.5 percent. -/
def dataEx : List (String × ℚ) :=
  [("usd_24h_change", 5 / 2)]

instance (c : Char) : Decidable (isDigitChar c) := by
  unfold isDigitChar
  infer_instance

end MarketData

namespace Receive

lemma unscrambleStep_stopped (s : ReceiveState) (h : s.frame < 0) :
    unscrambleStep s = (s, false) := by
  simp [unscrambleStep, h]

lemma unscrambleStep_count (s : ReceiveState) (h0 : 0 ≤ s.frame)
    (h3 : s.frame ≤ 3) :
    unscrambleStep s = ({ scramble := s.scramble, frame := s.frame + 1 }, true) := by
  have hn : ¬ s.frame < 0 := by omega
  have hn3 : ¬ s.frame > 3 := by omega
  simp [unscrambleStep, hn, hn3]

lemma unscrambleStep_decay (s : ReceiveState) (h : 3 < s.frame) :
    unscrambleStep s =
      ({ scramble := decay s.scramble, frame := 1 }, s.scramble.sum != 0) := by
  have hn : ¬ s.frame < 0 := by omega
  simp [unscrambleStep, hn, h]

lemma sum_pos_of_mem {l : List Int} (h0 : ∀ e ∈ l, 0 ≤ e)
    {x : Int} (hx : x ∈ l) (hxpos : 0 < x) : 0 < l.sum := by
  induction l with
  | nil => cases hx
  | cons a t ih =>
      rcases List.mem_cons.mp hx with rfl | hx
      · have ht : (0:Int) ≤ t.sum := by
          apply List.sum_nonneg
          intro e he
          exact h0 e (List.mem_cons_of_mem _ he)
        simp only [List.sum_cons]
        omega
      · have ha : (0:Int) ≤ a := h0 a (List.mem_cons_self a t)
        have := ih (fun e he => h0 e (List.mem_cons_of_mem _ he)) hx
        simp only [List.sum_cons]
        omega

lemma decay_eq_zeros {b : List Int} (h : ∀ e ∈ b, e ≤ 15) :
    decay b = List.replicate b.length 0 := by
  induction b with
  | nil => simp [decay]
  | cons a t ih =>
      have ha : a ≤ 15 := h a (List.mem_cons_self a t)
      have hmax : max 0 (a - 15) = 0 := by omega
      simp only [decay, List.map_cons, List.length_cons, List.replicate_succ, hmax]
      exact congrArg _ (ih (fun e he => h e (List.mem_cons_of_mem _ he)))

lemma decay_replicate_zero (n : Nat) :
    decay (List.replicate n 0) = List.replicate n 0 := by
  simp [decay]

lemma runCalls_succ (s : ReceiveState) (n : Nat) :
    runCalls s (n + 1) = runCalls (unscrambleStep s).1 n := rfl

lemma runCalls_add (s : ReceiveState) (m n : Nat) :
    runCalls s (m + n) = runCalls (runCalls s m) n := by
  induction m generalizing s with
  | zero => simp [runCalls]
  | succ m ih =>
      have hmn : m + 1 + n = (m + n) + 1 := by omega
      rw [hmn, runCalls_succ, runCalls_succ, ih]

lemma runCalls_count_steps (b : List Int) (f : Int) (k : Nat)
    (h0 : 0 ≤ f) (hk : f + k ≤ 4) :
    runCalls (ReceiveState.mk b f) k = ReceiveState.mk b (f + k) := by
  induction k generalizing f with
  | zero => simp [runCalls]
  | succ k ih =>
      have hf3 : f ≤ 3 := by omega
      have hstep : unscrambleStep (ReceiveState.mk b f) = (ReceiveState.mk b (f + 1), true) :=
        unscrambleStep_count _ h0 hf3
      rw [runCalls_succ, hstep]
      have hrec := ih (f + 1) (by omega) (by omega)
      rw [hrec]
      congr 1
      omega

lemma runCalls_start_four (b : List Int) :
    runCalls (startReveal b) 4 = ReceiveState.mk b 4 := by
  have h := runCalls_count_steps b 0 4 (by norm_num) (by norm_num)
  simpa [startReveal] using h

lemma runCalls_start_five (b : List Int) (hle : ∀ e ∈ b, e ≤ 15) :
    runCalls (startReveal b) 5 = ReceiveState.mk (List.replicate b.length 0) 1 := by
  have h45 : (5 : Nat) = 4 + 1 := by norm_num
  rw [h45, runCalls_add, runCalls_start_four, runCalls_succ,
    unscrambleStep_decay _ (by norm_num)]
  simp [runCalls, decay_eq_zeros hle]

lemma runCalls_stopped (s : ReceiveState) (h : s.frame < 0) (n : Nat) :
    runCalls s n = s := by
  induction n with
  | zero => rfl
  | succ n ih =>
      rw [runCalls_succ, unscrambleStep_stopped s h]
      exact ih

lemma sum_replicate_zero (n : Nat) : (List.replicate n (0 : Int)).sum = 0 := by
  simp

/-- C1 counterexample: starting a reveal with the buffer `[1]` (every
magnitude at most 15, one positive), the 5th `unscramble` call is the
decay tick that zeroes the buffer, yet that very call still schedules a
further animation frame, contrary to the claim that no further frame is
scheduled after that tick. -/
theorem small_buffer_one_tick_false :
    (runCalls (startReveal [1]) 5).scramble = [0] ∧
    (unscrambleStep (runCalls (startReveal [1]) 4)).2 = true := by
  decide

/-- C1 (amended): for every scramble buffer whose magnitudes are all
between 0 and 15 with at least one positive, after `start()` the first
four `unscramble` calls leave the buffer untouched, the 5th call is the
single decay tick that reduces every magnitude to 0 — but because the
termination sum is accumulated from the pre-decay magnitudes, that tick
still schedules another frame; the loop runs through four more calls and
stops at the second decay tick (the 9th call), which schedules nothing
further. -/
theorem small_buffer_two_tick_run (b : List Int)
    (hnn : ∀ e ∈ b, 0 ≤ e) (hle : ∀ e ∈ b, e ≤ 15)
    (hpos : ∃ e ∈ b, 0 < e) :
    runCalls (startReveal b) 4 = ReceiveState.mk b 4 ∧
    runCalls (startReveal b) 5 = ReceiveState.mk (List.replicate b.length 0) 1 ∧
    (∀ k, k < 8 → (unscrambleStep (runCalls (startReveal b) k)).2 = true) ∧
    (unscrambleStep (runCalls (startReveal b) 8)).2 = false := by
  obtain ⟨x, hx, hxpos⟩ := hpos
  have hsum : 0 < b.sum := sum_pos_of_mem hnn hx hxpos
  have h4 := runCalls_start_four b
  have h5 := runCalls_start_five b hle
  have hz : ∀ (m : Nat), 1 + (m : Int) ≤ 4 →
      runCalls (startReveal b) (5 + m) =
        ReceiveState.mk (List.replicate b.length 0) (1 + m) := by
    intro m hm
    rw [runCalls_add, h5, runCalls_count_steps _ 1 m (by norm_num) hm]
  refine ⟨h4, h5, ?_, ?_⟩
  · intro k hk
    interval_cases k
    · have h := runCalls_count_steps b 0 0 (by norm_num) (by norm_num)
      simp only [startReveal]
      rw [show ReceiveState.mk b (0 : Int) = ReceiveState.mk b (0 + (0:Nat)) by simp] at h ⊢
      rw [h, unscrambleStep_count _ (by norm_num) (by norm_num)]
    · have h := runCalls_count_steps b 0 1 (by norm_num) (by norm_num)
      show (unscrambleStep (runCalls (ReceiveState.mk b 0) 1)).2 = true
      rw [h, unscrambleStep_count _ (by norm_num) (by norm_num)]
    · have h := runCalls_count_steps b 0 2 (by norm_num) (by norm_num)
      show (unscrambleStep (runCalls (ReceiveState.mk b 0) 2)).2 = true
      rw [h, unscrambleStep_count _ (by norm_num) (by norm_num)]
    · have h := runCalls_count_steps b 0 3 (by norm_num) (by norm_num)
      show (unscrambleStep (runCalls (ReceiveState.mk b 0) 3)).2 = true
      rw [h, unscrambleStep_count _ (by norm_num) (by norm_num)]
    · rw [h4, unscrambleStep_decay _ (by norm_num)]
      simp only [bne_iff_ne, ne_eq]
      omega
    · have h := hz 0 (by norm_num)
      rw [show (5:Nat) + 0 = 5 by norm_num] at h
      rw [h, unscrambleStep_count _ (by norm_num) (by norm_num)]
    · have h := hz 1 (by norm_num)
      rw [show (5:Nat) + 1 = 6 by norm_num] at h
      rw [h, unscrambleStep_count _ (by norm_num) (by norm_num)]
    · have h := hz 2 (by norm_num)
      rw [show (5:Nat) + 2 = 7 by norm_num] at h
      rw [h, unscrambleStep_count _ (by norm_num) (by norm_num)]
  · have h := hz 3 (by norm_num)
    rw [show (5:Nat) + 3 = 8 by norm_num] at h
    rw [h, unscrambleStep_decay _ (by norm_num)]
    simp [sum_replicate_zero]

/-- C1 witness: the amended run evaluated on the concrete buffer `[1, 15]`. -/
theorem small_buffer_two_tick_run_witness :
    (∀ e ∈ ([1, 15] : List Int), 0 ≤ e) ∧
    (∀ e ∈ ([1, 15] : List Int), e ≤ 15) ∧
    (∃ e ∈ ([1, 15] : List Int), 0 < e) ∧
    (runCalls (startReveal [1, 15]) 4 = ReceiveState.mk [1, 15] 4 ∧
      runCalls (startReveal [1, 15]) 5 =
        ReceiveState.mk (List.replicate ([1, 15] : List Int).length 0) 1 ∧
      (∀ k, k < 8 → (unscrambleStep (runCalls (startReveal [1, 15]) k)).2 = true) ∧
      (unscrambleStep (runCalls (startReveal [1, 15]) 8)).2 = false) :=
  ⟨by decide, by decide, by decide,
    small_buffer_two_tick_run [1, 15] (by decide) (by decide) (by decide)⟩

/-- C2 counterexample: at a decay tick on the buffer `[10]` the new
(post-decay) magnitudes sum to 0, yet the tick still schedules another
frame, so the sum used for the termination check is not the post-decay
sum and the reveal cycle does not terminate the moment the buffer sum
reaches zero. -/
theorem decay_tick_post_sum_false :
    (unscrambleStep (ReceiveState.mk [10] 4)).2 = true ∧
    ((unscrambleStep (ReceiveState.mk [10] 4)).1).scramble.sum = 0 := by
  decide

/-- C2 (amended): on every decay tick the sum accumulated for the
termination check is the sum of the PRE-decay (old) magnitudes, the new
buffer is the decayed copy, and another frame is scheduled if and only
if that pre-decay sum is nonzero; hence a reveal cycle terminates at the
first decay tick whose pre-decay buffer sum is zero. -/
theorem decay_tick_pre_sum (s : ReceiveState) (h : 3 < s.frame) :
    unscrambleStep s =
      ({ scramble := decay s.scramble, frame := 1 }, s.scramble.sum != 0) ∧
    ((unscrambleStep s).2 = true ↔ s.scramble.sum ≠ 0) := by
  have h1 := unscrambleStep_decay s h
  refine ⟨h1, ?_⟩
  rw [h1]
  simp [bne_iff_ne]

/-- C2 witness: the amended decay-tick description evaluated at the
concrete state with buffer `[10]` and frame counter 4. -/
theorem decay_tick_pre_sum_witness :
    (3 : Int) < (ReceiveState.mk [10] 4).frame ∧
    (unscrambleStep (ReceiveState.mk [10] 4) =
      ({ scramble := decay (ReceiveState.mk [10] 4).scramble, frame := 1 },
        (ReceiveState.mk [10] 4).scramble.sum != 0) ∧
    ((unscrambleStep (ReceiveState.mk [10] 4)).2 = true ↔
      (ReceiveState.mk [10] 4).scramble.sum ≠ 0)) :=
  ⟨by decide, decay_tick_pre_sum (ReceiveState.mk [10] 4) (by decide)⟩

/-- C3: after `componentWillUnmount` sets the frame counter to the
sentinel `-1`, any number of further `unscramble` calls leaves the
component state (in particular the scramble buffer) unchanged and never
schedules a frame, whatever state the component was in at teardown. -/
theorem unmount_permanent_noop (s : ReceiveState) (n : Nat) :
    runCalls (componentWillUnmount s) n = componentWillUnmount s ∧
    (unscrambleStep (runCalls (componentWillUnmount s) n)).2 = false := by
  have hf : (componentWillUnmount s).frame < 0 := by
    simp [componentWillUnmount]
  refine ⟨runCalls_stopped _ hf n, ?_⟩
  rw [runCalls_stopped _ hf n, unscrambleStep_stopped _ hf]

lemma forall2_le_refl (l : List Int) :
    List.Forall₂ (fun a b => a ≤ b) l l := by
  induction l with
  | nil => exact List.Forall₂.nil
  | cons a t ih => exact List.Forall₂.cons le_rfl ih

lemma forall2_le_trans {l1 l2 l3 : List Int}
    (h1 : List.Forall₂ (fun a b => a ≤ b) l1 l2)
    (h2 : List.Forall₂ (fun a b => a ≤ b) l2 l3) :
    List.Forall₂ (fun a b => a ≤ b) l1 l3 := by
  induction h1 generalizing l3 with
  | nil =>
      cases h2
      exact List.Forall₂.nil
  | cons hab _ ih =>
      cases h2 with
      | cons hbc h2t => exact List.Forall₂.cons (le_trans hab hbc) (ih h2t)

lemma decay_nonneg (l : List Int) : ∀ e ∈ decay l, 0 ≤ e := by
  intro e he
  rcases List.mem_map.mp he with ⟨x, _, rfl⟩
  exact le_max_left 0 _

lemma forall2_decay_le {l : List Int} (h : ∀ e ∈ l, 0 ≤ e) :
    List.Forall₂ (fun a b => a ≤ b) (decay l) l := by
  induction l with
  | nil => exact List.Forall₂.nil
  | cons a t ih =>
      have ha : 0 ≤ a := h a (List.mem_cons_self a t)
      refine List.Forall₂.cons (max_le ha (by omega)) ?_
      exact ih (fun e he => h e (List.mem_cons_of_mem _ he))

lemma step_scramble_cases (s : ReceiveState) :
    ((unscrambleStep s).1).scramble = s.scramble ∨
    ((unscrambleStep s).1).scramble = decay s.scramble := by
  by_cases h1 : s.frame < 0
  · rw [unscrambleStep_stopped s h1]
    exact Or.inl rfl
  · by_cases h2 : 3 < s.frame
    · rw [unscrambleStep_decay s h2]
      exact Or.inr rfl
    · rw [unscrambleStep_count s (by omega) (by omega)]
      exact Or.inl rfl

lemma step_nonneg (s : ReceiveState) (h : ∀ e ∈ s.scramble, 0 ≤ e) :
    ∀ e ∈ ((unscrambleStep s).1).scramble, 0 ≤ e := by
  rcases step_scramble_cases s with hc | hc <;> rw [hc]
  · exact h
  · exact decay_nonneg _

lemma step_forall2 (s : ReceiveState) (h : ∀ e ∈ s.scramble, 0 ≤ e) :
    List.Forall₂ (fun a b => a ≤ b) ((unscrambleStep s).1).scramble s.scramble := by
  rcases step_scramble_cases s with hc | hc <;> rw [hc]
  · exact forall2_le_refl _
  · exact forall2_decay_le h

lemma runCalls_forall2 (s : ReceiveState) (h : ∀ e ∈ s.scramble, 0 ≤ e) (n : Nat) :
    List.Forall₂ (fun a b => a ≤ b) ((runCalls s n).scramble) s.scramble := by
  induction n generalizing s with
  | zero => exact forall2_le_refl _
  | succ n ih =>
      rw [runCalls_succ]
      exact forall2_le_trans (ih _ (step_nonneg s h)) (step_forall2 s h)

/-- C6: for every component state whose scramble magnitudes are
non-negative, a decay tick replaces every entry `e` by
`max 0 (e - 15)`, no entry of the buffer is negative after an
`unscramble` call, and over any number of further calls every entry is
monotonically non-increasing (pointwise, never re-increased). -/
theorem decay_floor_nonneg_monotone (s : ReceiveState)
    (h : ∀ e ∈ s.scramble, 0 ≤ e) :
    (3 < s.frame →
      ((unscrambleStep s).1).scramble = s.scramble.map (fun e => max 0 (e - 15))) ∧
    (∀ e ∈ ((unscrambleStep s).1).scramble, 0 ≤ e) ∧
    (∀ n, List.Forall₂ (fun a b => a ≤ b) ((runCalls s n).scramble) s.scramble) := by
  refine ⟨?_, step_nonneg s h, runCalls_forall2 s h⟩
  intro hf
  rw [unscrambleStep_decay s hf]
  rfl

/-- C6 witness: the floor/monotonicity facts evaluated at the concrete
state with buffer `[20, 3]` and frame counter 4 (a decay tick). -/
theorem decay_floor_nonneg_monotone_witness :
    (∀ e ∈ (ReceiveState.mk [20, 3] 4).scramble, 0 ≤ e) ∧
    ((3 < (ReceiveState.mk [20, 3] 4).frame →
      ((unscrambleStep (ReceiveState.mk [20, 3] 4)).1).scramble =
        (ReceiveState.mk [20, 3] 4).scramble.map (fun e => max 0 (e - 15))) ∧
    (∀ e ∈ ((unscrambleStep (ReceiveState.mk [20, 3] 4)).1).scramble, 0 ≤ e) ∧
    (∀ n, List.Forall₂ (fun a b => a ≤ b)
      ((runCalls (ReceiveState.mk [20, 3] 4) n).scramble)
      (ReceiveState.mk [20, 3] 4).scramble)) :=
  ⟨by decide, decay_floor_nonneg_monotone (ReceiveState.mk [20, 3] 4) (by decide)⟩

/-- C7: the scramble buffer always has length `ADDRESS_LENGTH`: the
initial state, the random re-seeding performed by
`componentWillReceiveProps` when a new address arrives, and every
`unscramble` call all produce a buffer of exactly `ADDRESS_LENGTH`
entries. -/
theorem scramble_length_invariant :
    initialScramble.length = ADDRESS_LENGTH ∧
    (∀ gen : Nat → Int, (randomBytes ADDRESS_LENGTH gen).length = ADDRESS_LENGTH) ∧
    (∀ (w nx : Bool) (s : ReceiveState) (gen : Nat → Int),
      s.scramble.length = ADDRESS_LENGTH →
      (componentWillReceiveProps w nx s gen).scramble.length = ADDRESS_LENGTH) ∧
    (∀ s : ReceiveState, s.scramble.length = ADDRESS_LENGTH →
      ((unscrambleStep s).1).scramble.length = ADDRESS_LENGTH) := by
  refine ⟨by simp [initialScramble], fun gen => by simp [randomBytes], ?_, ?_⟩
  · intro w nx s gen hs
    unfold componentWillReceiveProps
    by_cases hw : (w && !nx) = true
    · simp [hw, randomBytes]
    · simp only [hw, if_false]
      exact hs
  · intro s hs
    rcases step_scramble_cases s with hc | hc <;> rw [hc]
    · exact hs
    · simpa [decay] using hs

/-- C7 witness: the length invariant evaluated at a reseeding with a
constant generator and at a decay tick on the initial buffer. -/
theorem scramble_length_invariant_witness :
    (ReceiveState.mk initialScramble 4).scramble.length = ADDRESS_LENGTH ∧
    (componentWillReceiveProps true false (ReceiveState.mk initialScramble 4)
      (fun _ => 7)).scramble.length = ADDRESS_LENGTH ∧
    ((unscrambleStep (ReceiveState.mk initialScramble 4)).1).scramble.length =
      ADDRESS_LENGTH :=
  ⟨by simp [initialScramble],
    scramble_length_invariant.2.2.1 true false (ReceiveState.mk initialScramble 4)
      (fun _ => 7) (by simp [initialScramble]),
    scramble_length_invariant.2.2.2 (ReceiveState.mk initialScramble 4)
      (by simp [initialScramble])⟩

lemma renderAddress_nil_scr (b2c : Int → Char) (addr : List Char) :
    renderAddress b2c addr [] = addr := by
  induction addr with
  | nil => rfl
  | cons c cs ih => simpa [renderAddress] using ih

lemma renderAddress_getD (b2c : Int → Char) (addr : List Char) (scr : List Int)
    (i : Nat) (hi : i < addr.length) :
    (renderAddress b2c addr scr).getD i ' ' =
      (if 0 < scr.getD i 0 then b2c (scr.getD i 0) else addr.getD i ' ') := by
  induction addr generalizing scr i with
  | nil => simp at hi
  | cons c cs ih =>
      cases scr with
      | nil =>
          cases i with
          | zero => simp [renderAddress]
          | succ i =>
              have hi' : i < cs.length := by simpa using hi
              simpa [renderAddress] using ih [] i hi'
      | cons m ms =>
          cases i with
          | zero => simp [renderAddress]
          | succ i =>
              have hi' : i < cs.length := by simpa using hi
              simpa [renderAddress] using ih ms i hi'

lemma renderAddress_all_zero (b2c : Int → Char) (addr : List Char)
    (scr : List Int) (h : ∀ m ∈ scr, m = 0) :
    renderAddress b2c addr scr = addr := by
  induction addr generalizing scr with
  | nil => rfl
  | cons c cs ih =>
      cases scr with
      | nil => simpa [renderAddress] using renderAddress_nil_scr b2c cs
      | cons m ms =>
          have hm : m = 0 := h m (List.mem_cons_self m ms)
          have hlt : ¬ (0 : Int) < m := by omega
          simp only [renderAddress, hlt, if_false]
          exact congrArg _ (ih ms (fun x hx => h x (List.mem_cons_of_mem _ hx)))

/-- C8: for every address, scramble buffer and substitute-character
mapping, the rendered character at each position is the substitute
character derived from the magnitude when that magnitude is positive and
the true address character otherwise; in particular an all-zero buffer
renders the true address unchanged. -/
theorem render_scramble_contract (b2c : Int → Char) (addr : List Char)
    (scr : List Int) :
    (∀ i, i < addr.length →
      (renderAddress b2c addr scr).getD i ' ' =
        (if 0 < scr.getD i 0 then b2c (scr.getD i 0) else addr.getD i ' ')) ∧
    ((∀ m ∈ scr, m = 0) → renderAddress b2c addr scr = addr) :=
  ⟨fun i hi => renderAddress_getD b2c addr scr i hi,
    fun h => renderAddress_all_zero b2c addr scr h⟩

/-- C8 witness: the rendering contract evaluated on the address
`['A', 'B']` with a scrambled first position and on an all-zero buffer. -/
theorem render_scramble_contract_witness :
    (0 : Nat) < (['A', 'B'] : List Char).length ∧
    (renderAddress constSub ['A', 'B'] [20, 0]).getD 0 ' ' =
      (if 0 < (([20, 0] : List Int)).getD 0 0
        then constSub (([20, 0] : List Int).getD 0 0)
        else (['A', 'B'] : List Char).getD 0 ' ') ∧
    (∀ m ∈ ([0, 0] : List Int), m = 0) ∧
    renderAddress constSub ['A', 'B'] [0, 0] = ['A', 'B'] :=
  ⟨by decide,
    (render_scramble_contract constSub ['A', 'B'] [20, 0]).1 0 (by decide),
    by decide,
    (render_scramble_contract constSub ['A', 'B'] [0, 0]).2 (by decide)⟩

/-- C4: whenever `isSyncing` or `isTransitioning` is set,
`onGeneratePress` raises exactly one "please wait" error alert and
returns: the seed store is never constructed, `generateNewAddress` is
never dispatched, and no other effect occurs. -/
theorem generate_press_busy_guard (t : String → String) (p : GenProps)
    (h : p.isSyncing = true ∨ p.isTransitioning = true) :
    onGeneratePress t p =
      [UIEffect.alert "error" (t "global:pleaseWait")
        (t "global:pleaseWaitExplanation")] ∧
    (onGeneratePress t p).countP isAlert = 1 ∧
    UIEffect.seedStoreNew ∉ onGeneratePress t p ∧
    UIEffect.generateNewAddress ∉ onGeneratePress t p := by
  have hb : (p.isSyncing || p.isTransitioning) = true := by
    rcases h with h | h <;> simp [h]
  have he : onGeneratePress t p =
      [UIEffect.alert "error" (t "global:pleaseWait")
        (t "global:pleaseWaitExplanation")] := by
    simp [onGeneratePress, hb]
  refine ⟨he, ?_, ?_, ?_⟩ <;> rw [he] <;> simp [isAlert, List.countP, List.countP.go]

/-- C4 witness: the busy guard evaluated with the identity translation
and `isSyncing = true`. -/
theorem generate_press_busy_guard_witness :
    ((GenProps.mk true false).isSyncing = true ∨
      (GenProps.mk true false).isTransitioning = true) ∧
    (onGeneratePress id (GenProps.mk true false) =
      [UIEffect.alert "error" (id "global:pleaseWait")
        (id "global:pleaseWaitExplanation")] ∧
    (onGeneratePress id (GenProps.mk true false)).countP isAlert = 1 ∧
    UIEffect.seedStoreNew ∉ onGeneratePress id (GenProps.mk true false) ∧
    UIEffect.generateNewAddress ∉ onGeneratePress id (GenProps.mk true false)) :=
  ⟨Or.inl rfl, generate_press_busy_guard id (GenProps.mk true false) (Or.inl rfl)⟩

/-- C5: the three specified outcomes of `validateAdress`: a falsy
`validateAddress` result navigates to `/wallet/` with no alert; a truthy
result carrying a notification produces exactly one success alert with
the translated title and content and no navigation; a thrown failure
navigates to `/wallet/` with no alert, identically to the invalid case. -/
theorem validate_address_outcomes (t : String → String) (ti co err : String) :
    validateAdress t (Except.ok ValidationResult.invalid) =
      [UIEffect.navigate "/wallet/"] ∧
    validateAdress t
        (Except.ok (ValidationResult.valid (some (NotificationInfo.mk ti co)))) =
      [UIEffect.alert "success" (t ti) (t co)] ∧
    validateAdress t (Except.error err) = [UIEffect.navigate "/wallet/"] :=
  ⟨rfl, rfl, rfl⟩

end Receive

namespace MarketData

lemma digitChar_digit {d : Nat} (hd : d < 10) : isDigitChar (Nat.digitChar d) := by
  interval_cases d <;> decide

lemma natDigits_digits (n : Nat) : ∀ c ∈ natDigits n, isDigitChar c := by
  induction n using Nat.strong_induction_on with
  | _ n ih =>
      intro c hc
      by_cases h : n < 10
      · rw [natDigits, if_pos h] at hc
        have hc' : c = Nat.digitChar n := List.mem_singleton.mp hc
        rw [hc']
        exact digitChar_digit h
      · rw [natDigits, if_neg h] at hc
        rcases List.mem_append.mp hc with h1 | h1
        · exact ih (n / 10) (Nat.div_lt_self (by omega) (by norm_num)) c h1
        · have hc' : c = Nat.digitChar (n % 10) := List.mem_singleton.mp h1
          rw [hc']
          exact digitChar_digit (Nat.mod_lt _ (by norm_num))

lemma natDigits_no_dot (n : Nat) : ('.' : Char) ∉ natDigits n := by
  intro h
  have hd := natDigits_digits n _ h
  exact absurd hd (by decide)

lemma twoDecimal_mk (sign nd : List Char) (x y : Nat)
    (hsign : ('.' : Char) ∉ sign) (hnd : ∀ c ∈ nd, isDigitChar c)
    (hx : x < 10) (hy : y < 10) :
    isTwoDecimalString
      (String.mk (sign ++ nd ++ ['.', Nat.digitChar x, Nat.digitChar y])) := by
  refine ⟨sign ++ nd, Nat.digitChar x, Nat.digitChar y, rfl, ?_,
    digitChar_digit hx, digitChar_digit hy⟩
  intro hmem
  rcases List.mem_append.mp hmem with h | h
  · exact hsign h
  · exact absurd (hnd _ h) (by decide)

lemma jsToFixed2_twoDecimal (q : ℚ) : isTwoDecimalString (jsToFixed2 q) := by
  simp only [jsToFixed2]
  apply twoDecimal_mk
  · by_cases h : q < 0 <;> simp [h]
  · exact fun c hc => natDigits_digits _ c hc
  · exact Nat.mod_lt _ (by norm_num)
  · exact Nat.mod_lt _ (by norm_num)

/-- C10: for every currency string and data object, `setMarketData`
returns a `SET_STATISTICS` action whose `price` defaults to 0 when the
currency field is absent or falsy, whose `mcap` and `volume` are the
rounded values of the corresponding fields defaulting to 0 when absent,
and whose `change24h` is always a string with exactly two decimal
digits. -/
theorem set_market_data_shape (currency : String) (data : List (String × ℚ)) :
    (setMarketData currency data).type = "IOTA/MARKET_DATA/SET_STATISTICS" ∧
    ((jsGet data currency = none ∨ jsGet data currency = some 0) →
      (setMarketData currency data).price = 0) ∧
    (setMarketData currency data).mcap =
      jsRound ((jsGet data (currency ++ "_market_cap")).getD 0) ∧
    (setMarketData currency data).volume =
      jsRound ((jsGet data (currency ++ "_24h_vol")).getD 0) ∧
    isTwoDecimalString (setMarketData currency data).change24h := by
  refine ⟨rfl, ?_, rfl, rfl, ?_⟩
  · intro h
    rcases h with h | h <;> simp [setMarketData, h]
  · exact jsToFixed2_twoDecimal _

/-- C10 witness: the action shape evaluated at currency `usd` and the
concrete data object `dataEx`, whose `usd` field is absent. -/
theorem set_market_data_shape_witness :
    (jsGet dataEx "usd" = none ∨ jsGet dataEx "usd" = some 0) ∧
    (setMarketData "usd" dataEx).price = 0 ∧
    isTwoDecimalString (setMarketData "usd" dataEx).change24h :=
  ⟨Or.inl rfl,
    (set_market_data_shape "usd" dataEx).2.1 (Or.inl rfl),
    (set_market_data_shape "usd" dataEx).2.2.2.2⟩

lemma chartStep_dispatched (fetch : String → Option Nat → Except String (List ℚ))
    (fmt : List ℚ → List ℚ) (currency : String) (acc : GetChartDataRun)
    (tf : String) :
    (chartStep fetch fmt currency acc tf).dispatched = acc.dispatched := by
  cases hx : fetchChartData fetch currency tf <;> simp [chartStep, hx]

lemma foldl_chartStep_dispatched (fetch : String → Option Nat → Except String (List ℚ))
    (fmt : List ℚ → List ℚ) (currency : String) (l : List String)
    (acc : GetChartDataRun) :
    (l.foldl (chartStep fetch fmt currency) acc).dispatched = acc.dispatched := by
  induction l generalizing acc with
  | nil => rfl
  | cons tf tl ih => rw [List.foldl_cons, ih, chartStep_dispatched]

/-- C9: for every fetch collaborator, formatter and currency, the thunk
returned by `getChartData` dispatches no Redux action at all — the
fetched and formatted chart data lands only in the discarded local
object and errors are merely logged — so folding any reducer over the
dispatched actions leaves every store state unchanged. -/
theorem get_chart_data_no_dispatch
    (fetch : String → Option Nat → Except String (List ℚ))
    (fmt : List ℚ → List ℚ) (currency : String) :
    (getChartData fetch fmt currency).dispatched = [] ∧
    (∀ (σ : Type) (red : σ → String → σ) (st : σ),
      applyActions red st (getChartData fetch fmt currency).dispatched = st) := by
  have h : (getChartData fetch fmt currency).dispatched = [] := by
    unfold getChartData
    rw [foldl_chartStep_dispatched]
  exact ⟨h, fun σ red st => by rw [h]; rfl⟩

end MarketData
